import Mathlib

/-!
Verification of the authentication/session-token subsystem of the
user-management microservice (registration, login, password change,
JWT issuance/verification, refresh-token bookkeeping).

The definitions below are a shallow embedding of:
* `src/user-management-service/src/models/userModel.js`
  (schema fields, `pre('save')` hashing hook, `comparePassword`,
  the `toJSON` transform vs `toObject`),
* `src/unnamed/part_003` — `UserService` (`createUser`, `loginUser`,
  `changePassword`, `updateUser`, `generateTokens`, `verifyToken`),
* `src/unnamed/part_004` — the `authenticate` middleware,
* `src/user-management-service/src/app.js` — the `validate` middleware,
* `src/user-management-service/src/utils/errorHandler.js` —
  `AppError`, the global `errorHandler`, Joi `userSchemas.updateProfile`.

External libraries are modelled at the level the service observes them:
* bcryptjs: a bcrypt hash is determined by the salt and by the first
  72 bytes of the UTF-8 encoding of the input (bcrypt truncates longer
  inputs); `bcrypt.compare` re-derives the key from the candidate with
  the stored salt and compares.
* jsonwebtoken: a signed token is determined by its payload, the
  signing secret, and the issued-at/expiry instants; `jwt.verify`
  succeeds iff the token is well formed, was signed with the given
  secret, and has not expired.
* MongoDB/Mongoose: the collection is a list of documents; `save`
  upserts by `_id`, running the `pre('save')` hook first;
  `findByIdAndUpdate` applies a `$set` without running the hook.

Time is a `Nat` tick count; ObjectIds are `Nat`s handed out by the store.
-/

namespace UserMgmt

/-- UTF-8 encoding of one character, as byte values. -/
def utf8Bytes (c : Char) : List Nat :=
  let n := c.toNat
  if n < 0x80 then [n]
  else if n < 0x800 then
    [0xC0 ||| (n >>> 6), 0x80 ||| (n &&& 0x3F)]
  else if n < 0x10000 then
    [0xE0 ||| (n >>> 12), 0x80 ||| ((n >>> 6) &&& 0x3F), 0x80 ||| (n &&& 0x3F)]
  else
    [0xF0 ||| (n >>> 18), 0x80 ||| ((n >>> 12) &&& 0x3F),
     0x80 ||| ((n >>> 6) &&& 0x3F), 0x80 ||| (n &&& 0x3F)]

/-- UTF-8 encoding of a string, as byte values. -/
def strBytes (s : String) : List Nat :=
  s.data.flatMap utf8Bytes

/-- Number of hashing rounds etc. are irrelevant to the claims; what the
service observes of bcrypt is the derived key: bcryptjs truncates the
UTF-8 encoding of the password to 72 bytes before key derivation. -/
def bcryptKey (s : String) : List Nat :=
  (strBytes s).take 72

/-- The password field of a Mongoose document is a string that is either
still the plaintext (just assigned, hook not yet run) or the bcrypt hash
produced by the `pre('save')` hook. A bcrypt hash string encodes the
salt and the derived key. -/
inductive StoredPassword where
  | plain (p : String)
  | hashed (salt : Nat) (key : List Nat)
  deriving DecidableEq, Repr

/-- Bytes of the rendered `$2b$…` hash string, abstracted: only used to
state that re-hashing an already-hashed value would change it (the
service is proved never to take this branch). -/
def hashStringBytes (salt : Nat) (key : List Nat) : List Nat :=
  36 :: salt :: key

/-- `bcrypt.hash(value, salt)` as applied by the pre-save hook to the
current content of the password field. -/
def bcryptHash (salt : Nat) : StoredPassword → StoredPassword
  | .plain p => .hashed salt (bcryptKey p)
  | .hashed s k => .hashed salt ((hashStringBytes s k).take 72)

/-- `bcrypt.compare(candidate, stored)`: derives the key from the
candidate with the stored salt and compares; comparing against a string
that is not a bcrypt hash yields false. -/
def bcryptCompare (candidate : String) : StoredPassword → Bool
  | .hashed _ key => bcryptKey candidate == key
  | .plain _ => false

/-- Roles admitted by the `role` enum of the user schema. -/
inductive Role where
  | student
  | instructor
  | admin
  deriving DecidableEq, Repr

/-- The claims a token carries (`{id, email, role}` payload built in
`generateTokens`). -/
structure JwtPayload where
  id : Nat
  email : String
  role : Role
  deriving DecidableEq, Repr

/-- A presented token string: either a well-formed JWT (payload, signing
secret, issued-at, expiry) or garbage. -/
inductive Token where
  | signed (payload : JwtPayload) (secret : String) (iat exp : Nat)
  | malformed (raw : String)
  deriving DecidableEq, Repr

/-- `jwt.sign(payload, secret, { expiresIn })` at instant `now`. -/
def jwtSign (payload : JwtPayload) (secret : String) (now expiresIn : Nat) : Token :=
  .signed payload secret now (now + expiresIn)

inductive JwtError where
  | malformedToken
  | invalidSignature
  | expired
  deriving DecidableEq, Repr

/-- `jwt.verify(token, secret)` at instant `now`. -/
def jwtVerify (t : Token) (secret : String) (now : Nat) : Except JwtError JwtPayload :=
  match t with
  | .malformed _ => .error .malformedToken
  | .signed p s _ exp =>
    if s ≠ secret then .error .invalidSignature
    else if exp < now then .error .expired
    else .ok p

/-- One entry of the `refreshTokens` array:
`{ token: String, createdAt: { type: Date, default: Date.now } }`. -/
structure RefreshEntry where
  token : Token
  createdAt : Nat
  deriving DecidableEq, Repr

/-- A persisted user document, with the fields of `userSchema` that the
authentication subsystem reads or writes (OAuth / e-mail-verification
fields are never touched by it). `preferences` and `learningProfile`
are structured subdocuments the subsystem treats opaquely. -/
structure UserDoc where
  _id : Nat
  email : String
  password : StoredPassword
  firstName : String
  lastName : String
  username : Option String
  role : Role
  avatar : Option String
  preferences : String
  learningProfile : String
  isActive : Bool
  lastLogin : Option Nat
  refreshTokens : List RefreshEntry
  deriving DecidableEq, Repr

/-- An in-memory Mongoose document: the fields plus the dirty flag the
`pre('save')` hook consults via `this.isModified('password')`.
A document freshly loaded from the store has the flag cleared; assigning
`user.password = …` or constructing `new User({…, password, …})` sets it. -/
structure MDoc where
  doc : UserDoc
  passwordModified : Bool
  deriving DecidableEq, Repr

/-- `document.save()`: runs the `pre('save')` hook — which hashes the
password field iff it was modified — then persists. Returns the saved
document (dirty flag cleared) and the number of bcrypt hash computations
performed. -/
def MDoc.save (salt : Nat) (m : MDoc) : MDoc × Nat :=
  if m.passwordModified then
    (⟨{ m.doc with password := bcryptHash salt m.doc.password }, false⟩, 1)
  else
    (m, 0)

/-- `userSchema.methods.comparePassword`:
`bcrypt.compare(candidatePassword, this.password)`. -/
def UserDoc.comparePassword (u : UserDoc) (candidatePassword : String) : Bool :=
  bcryptCompare candidatePassword u.password

/-- The users collection: the documents plus the next fresh ObjectId. -/
structure DB where
  users : List UserDoc
  nextId : Nat
  deriving DecidableEq, Repr

/-- `User.findOne({ email })`. -/
def DB.findOneByEmail (db : DB) (email : String) : Option UserDoc :=
  db.users.find? (fun u => u.email == email)

/-- `User.findOne({ username })` (documents without a username never
match a concrete value). -/
def DB.findOneByUsername (db : DB) (username : String) : Option UserDoc :=
  db.users.find? (fun u => u.username == some username)

/-- `User.findById(id)`. -/
def DB.findById (db : DB) (id : Nat) : Option UserDoc :=
  db.users.find? (fun u => u._id == id)

/-- Persisting a saved document: replace the document with the same
`_id`, or append it if it is new. -/
def DB.persist (db : DB) (d : UserDoc) : DB :=
  if db.users.any (fun u => u._id == d._id) then
    { db with users := db.users.map (fun u => if u._id == d._id then d else u) }
  else
    { db with users := db.users ++ [d] }

/-- The environment configuration consumed by the subsystem
(`config.jwt.*`, `config.bcrypt.saltRounds`). -/
structure Config where
  secret : String
  refreshSecret : String
  expiresIn : Nat
  refreshExpiresIn : Nat
  saltRounds : Nat
  deriving DecidableEq, Repr

/-- `AppError(message, statusCode)`. -/
structure AppError where
  message : String
  statusCode : Nat
  deriving DecidableEq, Repr

/-- The plain object produced by `document.toObject()`. Mongoose applies
the sanitizing transform of the schema only on `toJSON()`, not on
`toObject()`: `toObject` yields every loaded field, including `password`
(when it was selected) and `refreshTokens`. `none` in the two optional
fields means the key is absent (deleted, or never selected). -/
structure UserObject where
  _id : Nat
  email : String
  firstName : String
  lastName : String
  username : Option String
  role : Role
  avatar : Option String
  preferences : String
  learningProfile : String
  isActive : Bool
  lastLogin : Option Nat
  password : Option StoredPassword
  refreshTokens : Option (List RefreshEntry)
  deriving DecidableEq, Repr

/-- `document.toObject()`; `withPassword` records whether the password
field is loaded on the document (`select: false` hides it from queries
unless `.select('+password')` was used; in-memory constructed documents
always carry it). -/
def UserDoc.toObject (d : UserDoc) (withPassword : Bool) : UserObject where
  _id := d._id
  email := d.email
  firstName := d.firstName
  lastName := d.lastName
  username := d.username
  role := d.role
  avatar := d.avatar
  preferences := d.preferences
  learningProfile := d.learningProfile
  isActive := d.isActive
  lastLogin := d.lastLogin
  password := if withPassword then some d.password else none
  refreshTokens := some d.refreshTokens

/-- The `{ accessToken, refreshToken }` pair returned by
`generateTokens`. -/
structure TokenPair where
  accessToken : Token
  refreshToken : Token
  deriving DecidableEq, Repr

/-- The `{ user, tokens }` object returned by `createUser`/`loginUser`. -/
structure AuthResult where
  user : UserObject
  tokens : TokenPair
  deriving DecidableEq, Repr

/-- Equality of `Except` results is decidable componentwise. -/
instance {ε α : Type} [DecidableEq ε] [DecidableEq α] : DecidableEq (Except ε α) := fun a b =>
  match a, b with
  | .ok x, .ok y =>
    if h : x = y then isTrue (congrArg Except.ok h)
    else isFalse (fun hc => h (Except.ok.inj hc))
  | .error x, .error y =>
    if h : x = y then isTrue (congrArg Except.error h)
    else isFalse (fun hc => h (Except.error.inj hc))
  | .ok _, .error _ => isFalse (fun hc => Except.noConfusion hc)
  | .error _, .ok _ => isFalse (fun hc => Except.noConfusion hc)

/-- Result of one service call: the value or the thrown `AppError`, the
store afterwards, and the number of bcrypt hash computations performed. -/
structure Outcome (α : Type) where
  result : Except AppError α
  db : DB
  hashes : Nat
  deriving DecidableEq, Repr

/-- The validated registration payload handed to `createUser`. -/
structure UserData where
  email : String
  password : String
  firstName : String
  lastName : String
  username : Option String
  role : Option Role
  deriving DecidableEq, Repr

/-- Result of `generateTokens`: the token pair, the (mutated, saved)
in-memory document, the store afterwards, and the hash count of the
embedded `user.save()`. -/
structure GenResult where
  tokens : TokenPair
  user : MDoc
  db : DB
  hashes : Nat
  deriving DecidableEq, Repr

namespace UserService

/-- `UserService.generateTokens(user)`: signs the `{id, email, role}`
payload with the access secret and with the refresh secret, pushes
`{ token: refreshToken }` onto `user.refreshTokens`, and awaits
`user.save()` before returning the pair. -/
def generateTokens (cfg : Config) (now : Nat) (db : DB) (user : MDoc) : GenResult :=
  let payload : JwtPayload := ⟨user.doc._id, user.doc.email, user.doc.role⟩
  let accessToken := jwtSign payload cfg.secret now cfg.expiresIn
  let refreshToken := jwtSign payload cfg.refreshSecret now cfg.refreshExpiresIn
  let pushed : MDoc :=
    { user with doc :=
      { user.doc with refreshTokens := user.doc.refreshTokens ++ [⟨refreshToken, now⟩] } }
  let saved := pushed.save cfg.saltRounds
  ⟨⟨accessToken, refreshToken⟩, saved.1, db.persist saved.1.doc, saved.2⟩

/-- `UserService.createUser(userData)`: email pre-check, optional
username pre-check, `new User(userData)` + `save()` (the hook hashes the
password), `generateTokens`, then `toObject` with `password` and
`refreshTokens` deleted. -/
def createUser (cfg : Config) (now : Nat) (db : DB) (data : UserData) : Outcome AuthResult :=
  match db.findOneByEmail data.email with
  | some _ => ⟨.error ⟨"Email already registered", 409⟩, db, 0⟩
  | none =>
    let usernameTaken : Bool :=
      match data.username with
      | some un => (db.findOneByUsername un).isSome
      | none => false
    if usernameTaken then
      ⟨.error ⟨"Username already taken", 409⟩, db, 0⟩
    else
      let user : MDoc :=
        ⟨⟨db.nextId, data.email, .plain data.password, data.firstName, data.lastName,
          data.username, data.role.getD .student, none, "default", "default",
          true, none, []⟩, true⟩
      let db0 : DB := { db with nextId := db.nextId + 1 }
      let saved := user.save cfg.saltRounds
      let db1 := db0.persist saved.1.doc
      let g := generateTokens cfg now db1 saved.1
      let userObject : UserObject :=
        { g.user.doc.toObject true with password := none, refreshTokens := none }
      ⟨.ok ⟨userObject, g.tokens⟩, g.db, saved.2 + g.hashes⟩

/-- `UserService.loginUser(email, password)`: lookup with
`.select('+password')`, `comparePassword`, `isActive` check, `lastLogin`
update + save, `generateTokens`, then returns `user.toObject()` —
with the password field still selected. -/
def loginUser (cfg : Config) (now : Nat) (db : DB) (email password : String) :
    Outcome AuthResult :=
  match db.findOneByEmail email with
  | none => ⟨.error ⟨"Invalid email or password", 401⟩, db, 0⟩
  | some u =>
    if ¬ u.comparePassword password then
      ⟨.error ⟨"Invalid email or password", 401⟩, db, 0⟩
    else if ¬ u.isActive then
      ⟨.error ⟨"Account is deactivated", 403⟩, db, 0⟩
    else
      let m : MDoc := ⟨{ u with lastLogin := some now }, false⟩
      let saved := m.save cfg.saltRounds
      let db1 := db.persist saved.1.doc
      let g := generateTokens cfg now db1 saved.1
      ⟨.ok ⟨g.user.doc.toObject true, g.tokens⟩, g.db, saved.2 + g.hashes⟩

/-- `UserService.changePassword(userId, currentPassword, newPassword)`:
`findById().select('+password')`, verify the current password, assign
the new plaintext (marking the path modified) and save — the hook
re-hashes exactly once. -/
def changePassword (cfg : Config) (db : DB) (userId : Nat)
    (currentPassword newPassword : String) : Outcome String :=
  match db.findById userId with
  | none => ⟨.error ⟨"User not found", 404⟩, db, 0⟩
  | some u =>
    if ¬ u.comparePassword currentPassword then
      ⟨.error ⟨"Current password is incorrect", 401⟩, db, 0⟩
    else
      let m : MDoc := ⟨{ u with password := .plain newPassword }, true⟩
      let saved := m.save cfg.saltRounds
      ⟨.ok "Password changed successfully", db.persist saved.1.doc, saved.2⟩

/-- `UserService.verifyToken(token)`: `jwt.verify(token, config.jwt.secret)`;
every failure collapses to `AppError('Invalid or expired token', 401)`. -/
def verifyToken (cfg : Config) (now : Nat) (token : Token) : Except AppError JwtPayload :=
  match jwtVerify token cfg.secret now with
  | .ok decoded => .ok decoded
  | .error _ => .error ⟨"Invalid or expired token", 401⟩

/-- `verifyToken` as a store-passing operation: the method lives on the
service object that owns the `User` model, so it could read or write the
collection — its body, embedded above, does neither. -/
def verifyTokenInDb (cfg : Config) (now : Nat) (db : DB) (token : Token) :
    Except AppError JwtPayload × DB :=
  (verifyToken cfg now token, db)

end UserService

/-- A PUT /api/users/profile request body, after JSON parsing. The first
six fields are the ones `userSchemas.updateProfile` admits; the last
four are fields a client may also send but the schema does not admit. -/
structure UpdateData where
  firstName : Option String
  lastName : Option String
  username : Option String
  avatar : Option String
  preferences : Option String
  learningProfile : Option String
  role : Option Role
  isActive : Option Bool
  email : Option String
  password : Option String
  deriving DecidableEq, Repr

/-- The value Joi produces under `stripUnknown: true`: every key not in
`userSchemas.updateProfile` is removed. -/
def joiStripUpdateProfile (b : UpdateData) : UpdateData :=
  { b with role := none, isActive := none, email := none, password := none }

/-- `userSchemas.updateProfile.validate(body, { abortEarly: false,
stripUnknown: true })`: the pair `(error, value)`. Unknown keys are
stripped rather than rejected; the admitted fields are well typed by
construction here, so no validation error arises from them. -/
def joiValidateUpdateProfile (b : UpdateData) : Option String × UpdateData :=
  (none, joiStripUpdateProfile b)

/-- The `validate(schema)` middleware of `app.js` applied to the
updateProfile schema: it destructures only `{ error }` from
`schema.validate(...)` — the sanitized `value` is discarded and the
original `req.body` flows on to the controller. -/
def validateUpdateProfile (body : UpdateData) : Except AppError UpdateData :=
  match (joiValidateUpdateProfile body).1 with
  | some _ => .error ⟨"Validation failed", 400⟩
  | none => .ok body

/-- `findByIdAndUpdate(userId, { $set: updateData })`: each provided
field overwrites the stored one; no `pre('save')` hook runs, so a
provided password is stored as the given string. -/
def applySet (d : UserDoc) (b : UpdateData) : UserDoc :=
  { d with
    firstName := b.firstName.getD d.firstName
    lastName := b.lastName.getD d.lastName
    username := match b.username with | some u => some u | none => d.username
    avatar := match b.avatar with | some a => some a | none => d.avatar
    preferences := b.preferences.getD d.preferences
    learningProfile := b.learningProfile.getD d.learningProfile
    role := b.role.getD d.role
    isActive := b.isActive.getD d.isActive
    email := b.email.getD d.email
    password := match b.password with | some p => .plain p | none => d.password }

namespace UserService

/-- `UserService.updateUser(userId, updateData)`: optional username
conflict pre-check (excluding the user itself), then
`findByIdAndUpdate(userId, { $set: updateData }, { new: true,
runValidators: true })`. -/
def updateUser (db : DB) (userId : Nat) (updateData : UpdateData) :
    Except AppError UserDoc × DB :=
  let usernameConflict : Bool :=
    match updateData.username with
    | some un => (db.users.find? (fun u => u.username == some un && u._id != userId)).isSome
    | none => false
  if usernameConflict then
    (.error ⟨"Username already taken", 409⟩, db)
  else
    match db.findById userId with
    | none => (.error ⟨"User not found", 404⟩, db)
    | some u =>
      let updated := applySet u updateData
      (.ok updated, db.persist updated)

end UserService

/-- The PUT /api/users/profile pipeline past authentication:
`validate(userSchemas.updateProfile)` then
`userController.updateProfile` → `userService.updateUser(req.user.id,
req.body)`. -/
def putProfile (db : DB) (userId : Nat) (body : UpdateData) :
    Except AppError UserDoc × DB :=
  match validateUpdateProfile body with
  | .error e => (.error e, db)
  | .ok b => UserService.updateUser db userId b

/-- The error values reaching the global `errorHandler` middleware. -/
inductive RaisedError where
  | appErr (e : AppError)
  | castErr
  | duplicateKey (field : String)
  | validationErr (message : String)
  | unclassified (message : String)
  deriving DecidableEq, Repr

/-- The JSON error response: HTTP status, `success` flag, `error` text. -/
structure ErrResponse where
  status : Nat
  success : Bool
  errMsg : String
  deriving DecidableEq, Repr

/-- The global `errorHandler` of `errorHandler.js`: `CastError` → 404,
MongoDB duplicate-key code 11000 → 409 with `<field> already exists`,
Mongoose `ValidationError` → 400, `AppError` keeps its status, anything
else → 500. -/
def errorHandler : RaisedError → ErrResponse
  | .appErr e => ⟨e.statusCode, false, e.message⟩
  | .castErr => ⟨404, false, "Resource not found"⟩
  | .duplicateKey field => ⟨409, false, field ++ " already exists"⟩
  | .validationErr m => ⟨400, false, m⟩
  | .unclassified m => ⟨500, false, m⟩

/-- Store sanity: ObjectIds already handed out are below the next fresh
one, and no two documents share an ObjectId. Both hold for every store
reachable through the service (creation assigns fresh ids). -/
def DB.Wf (db : DB) : Prop :=
  (∀ u ∈ db.users, u._id < db.nextId) ∧ (db.users.map (fun u => u._id)).Nodup


/-- The document `createUser` saves before token generation (hook has
hashed the password; no refresh token pushed yet). -/
def preDoc (cfg : Config) (db : DB) (d : UserData) : UserDoc :=
  ⟨db.nextId, d.email, .hashed cfg.saltRounds (bcryptKey d.password), d.firstName,
   d.lastName, d.username, d.role.getD .student, none, "default", "default",
   true, none, []⟩

/-- The token payload a successful registration signs. -/
def createdPayload (db : DB) (d : UserData) : JwtPayload :=
  ⟨db.nextId, d.email, d.role.getD .student⟩

/-- The token pair a successful registration returns. -/
def createdTokens (cfg : Config) (now : Nat) (db : DB) (d : UserData) : TokenPair :=
  ⟨jwtSign (createdPayload db d) cfg.secret now cfg.expiresIn,
   jwtSign (createdPayload db d) cfg.refreshSecret now cfg.refreshExpiresIn⟩

/-- The document a successful registration persists. -/
def createdDoc (cfg : Config) (now : Nat) (db : DB) (d : UserData) : UserDoc :=
  ⟨db.nextId, d.email, .hashed cfg.saltRounds (bcryptKey d.password), d.firstName,
   d.lastName, d.username, d.role.getD .student, none, "default", "default",
   true, none, [⟨(createdTokens cfg now db d).refreshToken, now⟩]⟩

/-- The token pair a successful login returns. -/
def loginTokens (cfg : Config) (now : Nat) (u : UserDoc) : TokenPair :=
  ⟨jwtSign ⟨u._id, u.email, u.role⟩ cfg.secret now cfg.expiresIn,
   jwtSign ⟨u._id, u.email, u.role⟩ cfg.refreshSecret now cfg.refreshExpiresIn⟩

/-- The document a successful login persists: `lastLogin` stamped and one
refresh entry appended; everything else — the password hash included —
untouched. -/
def loggedDoc (cfg : Config) (now : Nat) (u : UserDoc) : UserDoc :=
  { u with
    lastLogin := some now
    refreshTokens := u.refreshTokens ++ [⟨(loginTokens cfg now u).refreshToken, now⟩] }

/-- `DB.Wf` is decidable, so concrete stores can be checked by
evaluation. -/
instance (db : DB) : Decidable db.Wf := by
  unfold DB.Wf
  infer_instance

/-- A configuration with distinct access and refresh secrets and the
default 12 salt rounds. -/
def cfg0 : Config := ⟨"access-secret", "refresh-secret", 7, 30, 12⟩

/-- The empty store. -/
def db0 : DB := ⟨[], 0⟩

/-- The registration payload of end-to-end scenario A. -/
def regA : UserData := ⟨"a@x.com", "pw123456", "A", "B", none, none⟩

/-- The store after registering `regA` at instant 0. -/
def dbReg : DB := (UserService.createUser cfg0 0 db0 regA).db

/-- Placeholder document for total extraction from `Option`. -/
def defaultDoc : UserDoc :=
  ⟨0, "", .plain "", "", "", none, .student, none, "", "", false, none, []⟩

/-- Placeholder result for total extraction from `Except`. -/
def emptyAuth : AuthResult :=
  ⟨⟨0, "", "", "", none, .student, none, "", "", false, none, none, none⟩,
   ⟨.malformed "", .malformed ""⟩⟩

/-- The registration response of scenario A. -/
def regOkResult : AuthResult :=
  (UserService.createUser cfg0 0 db0 regA).result.toOption.getD emptyAuth

/-- The login response of scenario A (login at instant 1). -/
def loginOkResult : AuthResult :=
  (UserService.loginUser cfg0 1 dbReg "a@x.com" "pw123456").result.toOption.getD emptyAuth

/-- 128 `a`s: a maximum-length password admitted by the register
schema. -/
def pwLong1 : String := String.mk (List.replicate 128 'a')

/-- 72 `a`s followed by 56 `b`s: a different 128-character password that
agrees with `pwLong1` on the first 72 bytes only. -/
def pwLong2 : String := String.mk (List.replicate 72 'a' ++ List.replicate 56 'b')

/-- Registration with the 128-character password. -/
def regLong : UserData := ⟨"long@x.com", pwLong1, "L", "U", none, none⟩

/-- A second registration with the same email and all other fields
different. -/
def regB : UserData :=
  ⟨"a@x.com", "otherpw99", "X", "Y", some "xy", some .instructor⟩

/-- `dbReg` with every account deactivated (`isActive = false`). -/
def dbDeact : DB :=
  ⟨dbReg.users.map (fun u => { u with isActive := false }), dbReg.nextId⟩

/-- A profile-update request body attempting escalation:
`{ "role": "admin" }`. -/
def escalationBody : UpdateData :=
  ⟨none, none, none, none, none, none, some .admin, none, none, none⟩

/-- A successful `find?` splits the list at the first hit. -/
theorem find?_decomp {α : Type} {p : α → Bool} {l : List α} {a : α}
    (h : l.find? p = some a) :
    ∃ l₁ l₂, l = l₁ ++ a :: l₂ ∧ ∀ x ∈ l₁, ¬ p x := by
  induction l with
  | nil => simp [List.find?] at h
  | cons b t ih =>
    by_cases hb : p b
    · rw [List.find?_cons_of_pos _ hb] at h
      cases h
      exact ⟨[], t, rfl, by simp⟩
    · rw [List.find?_cons_of_neg _ hb] at h
      obtain ⟨l₁, l₂, rfl, hl₁⟩ := ih h
      refine ⟨b :: l₁, l₂, rfl, ?_⟩
      intro x hx
      rcases List.mem_cons.mp hx with hxb | hxl
      · exact hxb ▸ hb
      · exact hl₁ x hxl

/-- `find?` over a split list whose prefix fails the predicate and whose
middle element satisfies it returns the middle element. -/
theorem find?_middle {α : Type} (p : α → Bool) (l₁ l₂ : List α) (x : α)
    (h₁ : ∀ v ∈ l₁, ¬ p v) (hx : p x = true) :
    (l₁ ++ x :: l₂).find? p = some x := by
  rw [List.find?_append, List.find?_eq_none.mpr h₁,
    List.find?_cons_of_pos _ hx]
  rfl

/-- Persisting a document whose id is absent appends it. -/
theorem persist_fresh (db : DB) (d : UserDoc)
    (h : ∀ u ∈ db.users, u._id ≠ d._id) :
    db.persist d = ⟨db.users ++ [d], db.nextId⟩ := by
  have hany : db.users.any (fun u => u._id == d._id) = false :=
    List.any_eq_false.mpr (fun u hu => by simpa using h u hu)
  simp [DB.persist, hany]

/-- Persisting over a store that contains exactly one document with the
id replaces that document in place. -/
theorem persist_mid (l₁ l₂ : List UserDoc) (u d : UserDoc) (n : Nat)
    (hid : d._id = u._id)
    (h₁ : ∀ v ∈ l₁, v._id ≠ u._id) (h₂ : ∀ v ∈ l₂, v._id ≠ u._id) :
    DB.persist ⟨l₁ ++ u :: l₂, n⟩ d = ⟨l₁ ++ d :: l₂, n⟩ := by
  have hany : (l₁ ++ u :: l₂).any (fun v => v._id == d._id) = true :=
    List.any_eq_true.mpr ⟨u, by simp, by simp [hid]⟩
  have hmap : ∀ (l : List UserDoc), (∀ v ∈ l, v._id ≠ u._id) →
      l.map (fun v => if v._id = u._id then d else v) = l := by
    intro l hl
    conv_rhs => rw [← List.map_id l]
    exact List.map_congr_left (fun v hv => by simp [hl v hv])
  simp [DB.persist, hany, hid, hmap l₁ h₁, hmap l₂ h₂]

/-- Characterization of a registration that passes both uniqueness
pre-checks: the created document is appended to the store, the hook
hashes exactly once, and the response carries the sanitized object plus
the signed pair. -/
theorem createUser_ok_char (cfg : Config) (now : Nat) (db : DB) (d : UserData)
    (hw : db.Wf) (he : db.findOneByEmail d.email = none)
    (hu : (match d.username with
           | some un => (db.findOneByUsername un).isSome
           | none => false) = false) :
    UserService.createUser cfg now db d =
      ⟨.ok ⟨{ (createdDoc cfg now db d).toObject true with
                password := none, refreshTokens := none },
            createdTokens cfg now db d⟩,
       ⟨db.users ++ [createdDoc cfg now db d], db.nextId + 1⟩, 1⟩ := by
  have hfresh : ∀ u ∈ db.users, u._id ≠ db.nextId :=
    fun u hu' => Nat.ne_of_lt (hw.1 u hu')
  have hp1 : DB.persist ⟨db.users, db.nextId + 1⟩ (preDoc cfg db d)
      = ⟨db.users ++ [preDoc cfg db d], db.nextId + 1⟩ :=
    persist_fresh _ _ (fun u hu' => by simpa [preDoc] using hfresh u hu')
  have hp2 : DB.persist ⟨db.users ++ [preDoc cfg db d], db.nextId + 1⟩
        (createdDoc cfg now db d)
      = ⟨db.users ++ [createdDoc cfg now db d], db.nextId + 1⟩ := by
    simpa using persist_mid db.users [] (preDoc cfg db d) (createdDoc cfg now db d)
      (db.nextId + 1) (by simp [preDoc, createdDoc])
      (fun v hv => by simpa [preDoc] using hfresh v hv) (by simp)
  simp only [preDoc, createdDoc, createdTokens, createdPayload] at hp1 hp2
  unfold UserService.createUser UserService.generateTokens
  rw [he]
  simp only [hu, Bool.false_eq_true, if_false, MDoc.save, if_true, bcryptHash,
    UserDoc.toObject, createdDoc, createdTokens, createdPayload,
    List.nil_append, Nat.add_zero, hp1, hp2]


/-- Characterization of a successful login: the found document is
replaced in place by `loggedDoc`, no hash is computed, and the response
carries `toObject` of the updated document (password still selected)
plus the signed pair. -/
theorem loginUser_ok_char (cfg : Config) (now : Nat) (db : DB) (email pw : String)
    (u : UserDoc) (hw : db.Wf)
    (hfind : db.findOneByEmail email = some u)
    (hcmp : u.comparePassword pw = true)
    (hact : u.isActive = true) :
    ∃ l₁ l₂, db.users = l₁ ++ u :: l₂ ∧ (∀ x ∈ l₁, ¬(x.email == email)) ∧
      UserService.loginUser cfg now db email pw =
        ⟨.ok ⟨(loggedDoc cfg now u).toObject true, loginTokens cfg now u⟩,
         ⟨l₁ ++ loggedDoc cfg now u :: l₂, db.nextId⟩, 0⟩ := by
  obtain ⟨users, nextId⟩ := db
  obtain ⟨l₁, l₂, hsplit, hl₁⟩ :=
    find?_decomp (by simpa [DB.findOneByEmail] using hfind)
  subst hsplit
  have hids : ((l₁ ++ u :: l₂).map (fun v => v._id)).Nodup := hw.2
  rw [List.map_append, List.map_cons, List.nodup_middle, List.nodup_cons] at hids
  have h₁ : ∀ v ∈ l₁, v._id ≠ u._id := by
    intro v hv hvid
    apply hids.1
    rw [← hvid]
    exact List.mem_append.mpr (Or.inl (List.mem_map_of_mem (fun w => w._id) hv))
  have h₂ : ∀ v ∈ l₂, v._id ≠ u._id := by
    intro v hv hvid
    apply hids.1
    rw [← hvid]
    exact List.mem_append.mpr (Or.inr (List.mem_map_of_mem (fun w => w._id) hv))
  refine ⟨l₁, l₂, rfl, hl₁, ?_⟩
  have hq1 : DB.persist ⟨l₁ ++ u :: l₂, nextId⟩ { u with lastLogin := some now }
      = ⟨l₁ ++ { u with lastLogin := some now } :: l₂, nextId⟩ :=
    persist_mid l₁ l₂ u _ nextId rfl h₁ h₂
  have hq2 : DB.persist ⟨l₁ ++ { u with lastLogin := some now } :: l₂, nextId⟩
        (loggedDoc cfg now u)
      = ⟨l₁ ++ loggedDoc cfg now u :: l₂, nextId⟩ :=
    persist_mid l₁ l₂ _ _ nextId rfl (fun v hv => h₁ v hv) (fun v hv => h₂ v hv)
  simp only [loggedDoc, loginTokens, hact] at hq1 hq2 ⊢
  unfold UserService.loginUser UserService.generateTokens
  rw [hfind]
  simp only [hcmp, hact, not_true, if_false, Bool.not_true, MDoc.save,
    Bool.false_eq_true, if_true, ite_false, ite_true, UserDoc.toObject,
    Nat.add_zero, hq1, hq2]

/-- Characterization of a successful password change: the stored hash of
the targeted document is replaced by the hash of the new plaintext, with
exactly one hash computation. -/
theorem changePassword_ok_char (cfg : Config) (db : DB) (uid : Nat)
    (cur npw : String) (u : UserDoc) (hw : db.Wf)
    (hfind : db.findById uid = some u)
    (hcmp : u.comparePassword cur = true) :
    ∃ l₁ l₂, db.users = l₁ ++ u :: l₂ ∧ (∀ x ∈ l₁, ¬(x._id == uid)) ∧
      (u._id == uid) = true ∧
      UserService.changePassword cfg db uid cur npw =
        ⟨.ok "Password changed successfully",
         ⟨l₁ ++ { u with password := .hashed cfg.saltRounds (bcryptKey npw) } :: l₂,
          db.nextId⟩, 1⟩ := by
  have hid : (u._id == uid) = true := by
    have hfind' : db.users.find? (fun v => v._id == uid) = some u := hfind
    have h2 := List.find?_some hfind'
    exact h2
  obtain ⟨users, nextId⟩ := db
  obtain ⟨l₁, l₂, hsplit, hl₁⟩ :=
    find?_decomp (by simpa [DB.findById] using hfind)
  subst hsplit
  have hids : ((l₁ ++ u :: l₂).map (fun v => v._id)).Nodup := hw.2
  rw [List.map_append, List.map_cons, List.nodup_middle, List.nodup_cons] at hids
  have h₁ : ∀ v ∈ l₁, v._id ≠ u._id := by
    intro v hv hvid
    apply hids.1
    rw [← hvid]
    exact List.mem_append.mpr (Or.inl (List.mem_map_of_mem (fun w => w._id) hv))
  have h₂ : ∀ v ∈ l₂, v._id ≠ u._id := by
    intro v hv hvid
    apply hids.1
    rw [← hvid]
    exact List.mem_append.mpr (Or.inr (List.mem_map_of_mem (fun w => w._id) hv))
  refine ⟨l₁, l₂, rfl, hl₁, hid, ?_⟩
  have hq1 : DB.persist ⟨l₁ ++ u :: l₂, nextId⟩
        { u with password := .hashed cfg.saltRounds (bcryptKey npw) }
      = ⟨l₁ ++ { u with password := .hashed cfg.saltRounds (bcryptKey npw) } :: l₂,
         nextId⟩ :=
    persist_mid l₁ l₂ u _ nextId rfl h₁ h₂
  unfold UserService.changePassword
  rw [hfind]
  simp only [hcmp, not_true, Bool.not_true, Bool.false_eq_true, if_false,
    MDoc.save, if_true, ite_false, ite_true, bcryptHash, hq1]

/-- A successful registration implies both uniqueness pre-checks passed. -/
theorem createUser_ok_inv (cfg : Config) (now : Nat) (db : DB) (d : UserData)
    (a : AuthResult)
    (h : (UserService.createUser cfg now db d).result = .ok a) :
    db.findOneByEmail d.email = none ∧
    (match d.username with
     | some un => (db.findOneByUsername un).isSome
     | none => false) = false := by
  unfold UserService.createUser at h
  cases hf : db.findOneByEmail d.email with
  | some u => rw [hf] at h; simp at h
  | none =>
    rw [hf] at h
    refine ⟨rfl, ?_⟩
    cases hu : (match d.username with
                | some un => (db.findOneByUsername un).isSome
                | none => false) with
    | true => simp [hu] at h
    | false => rfl

/-- A successful login implies the account was found, the password
matched, and the account was active. -/
theorem loginUser_ok_inv (cfg : Config) (now : Nat) (db : DB) (email pw : String)
    (a : AuthResult)
    (h : (UserService.loginUser cfg now db email pw).result = .ok a) :
    ∃ u, db.findOneByEmail email = some u ∧
      u.comparePassword pw = true ∧ u.isActive = true := by
  unfold UserService.loginUser at h
  cases hf : db.findOneByEmail email with
  | none => rw [hf] at h; simp at h
  | some u =>
    rw [hf] at h
    by_cases hc : u.comparePassword pw = true
    · by_cases ha : u.isActive = true
      · exact ⟨u, rfl, hc, ha⟩
      · simp [hc, ha] at h
    · simp [hc] at h

/-- A successful password change implies the account was found and the
current password matched. -/
theorem changePassword_ok_inv (cfg : Config) (db : DB) (uid : Nat)
    (cur npw msg : String)
    (h : (UserService.changePassword cfg db uid cur npw).result = .ok msg) :
    ∃ u, db.findById uid = some u ∧ u.comparePassword cur = true := by
  unfold UserService.changePassword at h
  cases hf : db.findById uid with
  | none => rw [hf] at h; simp at h
  | some u =>
    rw [hf] at h
    by_cases hc : u.comparePassword cur = true
    · exact ⟨u, rfl, hc⟩
    · simp [hc] at h


/-- C1: on the sampled run, the register response is sanitized (no
password, no refresh-token list), but the login response's user object
still contains the stored bcrypt hash and the refresh-token list —
`loginUser` returns `user.toObject()` with the password selected, and
the schema's sanitizing transform applies only to `toJSON`. -/
theorem C1_login_response_leaks_hash_and_refresh_tokens :
    ((UserService.createUser cfg0 0 db0 regA).result.toOption.map
      (fun a => (a.user.password, a.user.refreshTokens))) = some (none, none)
    ∧ ((UserService.loginUser cfg0 1 dbReg "a@x.com" "pw123456").result.toOption.map
      (fun a => (a.user.password, a.user.refreshTokens.map List.length)))
      = some (some (.hashed 12 (bcryptKey "pw123456")), some 2) := by
  decide

/-- C2 (counterexample): two distinct 128-character passwords that agree
on their first 72 bytes verify interchangeably — after registering with
`pwLong1`, `comparePassword pwLong2` is true although `pwLong2 ≠
pwLong1`, because bcrypt truncates its input to 72 bytes. -/
theorem C2_counterexample_128char_collision :
    pwLong2 ≠ pwLong1
    ∧ (((UserService.createUser cfg0 0 db0 regLong).db.findOneByEmail
          "long@x.com").map (fun u => u.comparePassword pwLong2)) = some true := by
  constructor
  · decide
  · decide

/-- C4: a login against a non-existent email and a login against an
existing email with a non-matching password both fail with the same
`AppError`: message "Invalid email or password", status 401. -/
theorem C4_uniform_unauthorized_on_bad_credentials
    (cfg : Config) (now : Nat) (db : DB) (email pw₁ pw₂ : String) (u : UserDoc) :
    (db.findOneByEmail email = none →
      (UserService.loginUser cfg now db email pw₁).result
        = .error ⟨"Invalid email or password", 401⟩)
    ∧ (db.findOneByEmail email = some u → u.comparePassword pw₂ = false →
      (UserService.loginUser cfg now db email pw₂).result
        = .error ⟨"Invalid email or password", 401⟩) := by
  constructor
  · intro h
    unfold UserService.loginUser
    rw [h]
  · intro h hc
    unfold UserService.loginUser
    rw [h]
    simp [hc]

/-- Witness for C4: the empty store vs the registered store with a wrong
password both yield the identical 401 error. -/
theorem C4_uniform_unauthorized_on_bad_credentials_witness :
    (UserService.loginUser cfg0 1 db0 "ghost@x.com" "pw123456").result
      = .error ⟨"Invalid email or password", 401⟩
    ∧ (UserService.loginUser cfg0 1 dbReg "a@x.com" "wrongpass").result
      = .error ⟨"Invalid email or password", 401⟩ :=
  ⟨(C4_uniform_unauthorized_on_bad_credentials cfg0 1 db0 "ghost@x.com"
      "pw123456" "pw123456" defaultDoc).1 (by decide),
   (C4_uniform_unauthorized_on_bad_credentials cfg0 1 dbReg "a@x.com"
      "wrongpass" "wrongpass"
      ((dbReg.findOneByEmail "a@x.com").getD defaultDoc)).2 (by decide) (by decide)⟩

/-- C6: with a correct password a deactivated account fails 403, and the
`isActive` check sits after password verification, so a deactivated
account with a wrong password still fails with the 401 credentials
error. -/
theorem C6_deactivated_forbidden_only_after_password_check
    (cfg : Config) (now : Nat) (db : DB) (email pw : String) (u : UserDoc)
    (hfind : db.findOneByEmail email = some u) :
    (u.comparePassword pw = true → u.isActive = false →
      (UserService.loginUser cfg now db email pw).result
        = .error ⟨"Account is deactivated", 403⟩)
    ∧ (u.comparePassword pw = false →
      (UserService.loginUser cfg now db email pw).result
        = .error ⟨"Invalid email or password", 401⟩) := by
  constructor
  · intro hc ha
    unfold UserService.loginUser
    rw [hfind]
    simp [hc, ha]
  · intro hc
    unfold UserService.loginUser
    rw [hfind]
    simp [hc]

/-- Witness for C6: the deactivated account rejects the correct password
with 403 and a wrong password with 401. -/
theorem C6_deactivated_forbidden_only_after_password_check_witness :
    (UserService.loginUser cfg0 2 dbDeact "a@x.com" "pw123456").result
      = .error ⟨"Account is deactivated", 403⟩
    ∧ (UserService.loginUser cfg0 2 dbDeact "a@x.com" "wrongpass").result
      = .error ⟨"Invalid email or password", 401⟩ :=
  ⟨(C6_deactivated_forbidden_only_after_password_check cfg0 2 dbDeact "a@x.com"
      "pw123456" ((dbDeact.findOneByEmail "a@x.com").getD defaultDoc)
      (by decide)).1 (by decide) (by decide),
   (C6_deactivated_forbidden_only_after_password_check cfg0 2 dbDeact "a@x.com"
      "wrongpass" ((dbDeact.findOneByEmail "a@x.com").getD defaultDoc)
      (by decide)).2 (by decide)⟩

/-- C7: malformed tokens, wrong-secret signatures and expired tokens all
collapse to the one `AppError` "Invalid or expired token" 401; in
particular the refresh token minted by `generateTokens` is rejected by
the access-token verifier whenever the two secrets differ. -/
theorem C7_verifier_single_error_kind_and_cross_secret_rejection
    (cfg : Config) (now : Nat) :
    (∀ raw, UserService.verifyToken cfg now (.malformed raw)
      = .error ⟨"Invalid or expired token", 401⟩)
    ∧ (∀ p s iat e, s ≠ cfg.secret →
      UserService.verifyToken cfg now (.signed p s iat e)
        = .error ⟨"Invalid or expired token", 401⟩)
    ∧ (∀ p iat e, e < now →
      UserService.verifyToken cfg now (.signed p cfg.secret iat e)
        = .error ⟨"Invalid or expired token", 401⟩)
    ∧ (cfg.refreshSecret ≠ cfg.secret → ∀ now₀ db m,
      UserService.verifyToken cfg now
          ((UserService.generateTokens cfg now₀ db m).tokens.refreshToken)
        = .error ⟨"Invalid or expired token", 401⟩) := by
  refine ⟨fun raw => rfl, fun p s iat e hs => ?_, fun p iat e he => ?_,
          fun hs now₀ db m => ?_⟩
  · simp [UserService.verifyToken, jwtVerify, hs]
  · simp [UserService.verifyToken, jwtVerify, he]
  · simp [UserService.verifyToken, UserService.generateTokens, jwtVerify,
      jwtSign, hs]

/-- Witness for C7: the four rejection modes at concrete inputs. -/
theorem C7_verifier_single_error_kind_witness :
    UserService.verifyToken cfg0 5 (.malformed "xx")
      = .error ⟨"Invalid or expired token", 401⟩
    ∧ UserService.verifyToken cfg0 5
        (.signed ⟨0, "a@x.com", .student⟩ "refresh-secret" 0 40)
      = .error ⟨"Invalid or expired token", 401⟩
    ∧ UserService.verifyToken cfg0 50
        (.signed ⟨0, "a@x.com", .student⟩ "access-secret" 0 7)
      = .error ⟨"Invalid or expired token", 401⟩
    ∧ UserService.verifyToken cfg0 5
        ((UserService.generateTokens cfg0 0 db0 ⟨defaultDoc, false⟩).tokens.refreshToken)
      = .error ⟨"Invalid or expired token", 401⟩ :=
  ⟨(C7_verifier_single_error_kind_and_cross_secret_rejection cfg0 5).1 "xx",
   (C7_verifier_single_error_kind_and_cross_secret_rejection cfg0 5).2.1
      ⟨0, "a@x.com", .student⟩ "refresh-secret" 0 40 (by decide),
   (C7_verifier_single_error_kind_and_cross_secret_rejection cfg0 50).2.2.1
      ⟨0, "a@x.com", .student⟩ 0 7 (by decide),
   (C7_verifier_single_error_kind_and_cross_secret_rejection cfg0 5).2.2.2
      (by decide) 0 db0 ⟨defaultDoc, false⟩⟩

/-- C8: `verifyToken`, run as a store-passing operation, yields the same
result in any two store states and leaves the store untouched — it is a
pure function of the token string, the access-token secret and the
clock, and never consults the Credential Store. -/
theorem C8_verifyToken_pure_wrt_persisted_state
    (cfg : Config) (now : Nat) (t : Token) (db₁ db₂ : DB) :
    (UserService.verifyTokenInDb cfg now db₁ t).1
      = (UserService.verifyTokenInDb cfg now db₂ t).1
    ∧ (UserService.verifyTokenInDb cfg now db₁ t).2 = db₁ :=
  ⟨rfl, rfl⟩

/-- C10: the Joi `stripUnknown` value does drop `role`, but the
middleware discards that value, so the escalation body reaches
`updateUser` intact: the PUT /profile pipeline turns user 0 from
student into admin. -/
theorem C10_profile_update_escalates_role :
    (joiStripUpdateProfile escalationBody).role = none
    ∧ ((dbReg.findById 0).map (fun u => u.role)) = some .student
    ∧ ((putProfile dbReg 0 escalationBody).1.toOption.map (fun u => u.role))
      = some .admin
    ∧ (((putProfile dbReg 0 escalationBody).2.findById 0).map (fun u => u.role))
      = some .admin := by
  decide

/-- C2 (amended): after a `createUser` (resp. the latest
`changePassword`), `comparePassword p` is true iff the first 72 UTF-8
bytes of `p` equal the first 72 UTF-8 bytes of the supplied plaintext —
bcrypt's truncation, which coincides with plain equality only below 72
bytes. -/
theorem C2_amended_verify_iff_first72_bytes :
    (∀ (cfg : Config) (now : Nat) (db : DB) (d : UserData) (a : AuthResult)
        (p : String),
      db.Wf → (UserService.createUser cfg now db d).result = .ok a →
      ∀ u, (UserService.createUser cfg now db d).db.findOneByEmail d.email = some u →
        (u.comparePassword p = true ↔ bcryptKey p = bcryptKey d.password))
    ∧ (∀ (cfg : Config) (db : DB) (uid : Nat) (cur npw msg p : String),
      db.Wf → (UserService.changePassword cfg db uid cur npw).result = .ok msg →
      ∀ u, (UserService.changePassword cfg db uid cur npw).db.findById uid = some u →
        (u.comparePassword p = true ↔ bcryptKey p = bcryptKey npw)) := by
  constructor
  · intro cfg now db d a p hw hok u hu
    obtain ⟨hemail, husr⟩ := createUser_ok_inv cfg now db d a hok
    have hchar := createUser_ok_char cfg now db d hw hemail husr
    rw [hchar] at hu
    have hemail' : ∀ v ∈ db.users, ¬(v.email == d.email) :=
      List.find?_eq_none.mp hemail
    have hfind : DB.findOneByEmail ⟨db.users ++ [createdDoc cfg now db d],
        db.nextId + 1⟩ d.email = some (createdDoc cfg now db d) :=
      find?_middle _ db.users [] _ hemail' (by simp [createdDoc])
    rw [hfind] at hu
    cases hu
    simp [UserDoc.comparePassword, bcryptCompare, createdDoc]
  · intro cfg db uid cur npw msg p hw hok u hu
    obtain ⟨u₀, hfind, hcmp⟩ := changePassword_ok_inv cfg db uid cur npw msg hok
    obtain ⟨l₁, l₂, hsplit, hl₁, hid, hchar⟩ :=
      changePassword_ok_char cfg db uid cur npw u₀ hw hfind hcmp
    rw [hchar] at hu
    have hfind2 : DB.findById ⟨l₁ ++
          { u₀ with password := .hashed cfg.saltRounds (bcryptKey npw) } :: l₂,
        db.nextId⟩ uid
        = some { u₀ with password := .hashed cfg.saltRounds (bcryptKey npw) } :=
      find?_middle _ l₁ l₂ _ hl₁ (by simpa using hid)
    rw [hfind2] at hu
    cases hu
    simp [UserDoc.comparePassword, bcryptCompare]

/-- Witness for C2 (amended): the registered account of scenario A
verifies a candidate iff the candidate's first 72 bytes match those of
"pw123456". -/
theorem C2_amended_verify_iff_first72_bytes_witness :
    ((dbReg.findOneByEmail "a@x.com").getD defaultDoc).comparePassword "pw123456"
        = true
      ↔ bcryptKey "pw123456" = bcryptKey regA.password :=
  C2_amended_verify_iff_first72_bytes.1 cfg0 0 db0 regA regOkResult "pw123456"
    (by decide) (by decide) _ (by decide)

/-- C3: a successful login replaces the stored record by one whose
refresh-token list is the old list plus exactly the returned refresh
token — persisted in the store the call returns, hence before the caller
sees the tokens — and a successful registration persists exactly the one
returned refresh token. -/
theorem C3_issuance_appends_exactly_one_refresh_token :
    (∀ (cfg : Config) (now : Nat) (db : DB) (email pw : String) (a : AuthResult),
      db.Wf → (UserService.loginUser cfg now db email pw).result = .ok a →
      ∃ u u', db.findOneByEmail email = some u
        ∧ (UserService.loginUser cfg now db email pw).db.findOneByEmail email
            = some u'
        ∧ u'.refreshTokens = u.refreshTokens ++ [⟨a.tokens.refreshToken, now⟩]
        ∧ u'.refreshTokens.length = u.refreshTokens.length + 1)
    ∧ (∀ (cfg : Config) (now : Nat) (db : DB) (d : UserData) (a : AuthResult),
      db.Wf → (UserService.createUser cfg now db d).result = .ok a →
      ∃ u', (UserService.createUser cfg now db d).db.findOneByEmail d.email
          = some u'
        ∧ u'.refreshTokens = [⟨a.tokens.refreshToken, now⟩]) := by
  constructor
  · intro cfg now db email pw a hw hok
    obtain ⟨u, hfind, hcmp, hact⟩ := loginUser_ok_inv cfg now db email pw a hok
    have hue : (u.email == email) = true := by
      have hfind' : db.users.find? (fun v => v.email == email) = some u := hfind
      have h2 := List.find?_some hfind'
      exact h2
    obtain ⟨l₁, l₂, hsplit, hl₁, hchar⟩ :=
      loginUser_ok_char cfg now db email pw u hw hfind hcmp hact
    have ha : a = ⟨(loggedDoc cfg now u).toObject true, loginTokens cfg now u⟩ := by
      rw [hchar] at hok
      exact (Except.ok.inj hok).symm
    subst ha
    refine ⟨u, loggedDoc cfg now u, hfind, ?_, ?_, ?_⟩
    · rw [hchar]
      exact find?_middle _ l₁ l₂ _ hl₁ (by simpa [loggedDoc] using hue)
    · simp [loggedDoc, loginTokens]
    · simp [loggedDoc]
  · intro cfg now db d a hw hok
    obtain ⟨hemail, husr⟩ := createUser_ok_inv cfg now db d a hok
    have hchar := createUser_ok_char cfg now db d hw hemail husr
    have ha : a = ⟨{ (createdDoc cfg now db d).toObject true with
          password := none, refreshTokens := none },
        createdTokens cfg now db d⟩ := by
      rw [hchar] at hok
      exact (Except.ok.inj hok).symm
    subst ha
    refine ⟨createdDoc cfg now db d, ?_, ?_⟩
    · rw [hchar]
      exact find?_middle _ db.users [] _ (List.find?_eq_none.mp hemail)
        (by simp [createdDoc])
    · simp [createdDoc, createdTokens]

/-- Witness for C3: scenario A — registration stores one token, the
following login appends exactly one more. -/
theorem C3_issuance_appends_exactly_one_refresh_token_witness :
    (∃ u u', dbReg.findOneByEmail "a@x.com" = some u
      ∧ (UserService.loginUser cfg0 1 dbReg "a@x.com" "pw123456").db.findOneByEmail
          "a@x.com" = some u'
      ∧ u'.refreshTokens = u.refreshTokens ++ [⟨loginOkResult.tokens.refreshToken, 1⟩]
      ∧ u'.refreshTokens.length = u.refreshTokens.length + 1)
    ∧ (∃ u', (UserService.createUser cfg0 0 db0 regA).db.findOneByEmail "a@x.com"
          = some u'
      ∧ u'.refreshTokens = [⟨regOkResult.tokens.refreshToken, 0⟩]) :=
  ⟨C3_issuance_appends_exactly_one_refresh_token.1 cfg0 1 dbReg "a@x.com"
      "pw123456" loginOkResult (by decide) (by decide),
   C3_issuance_appends_exactly_one_refresh_token.2 cfg0 0 db0 regA regOkResult
      (by decide) (by decide)⟩

/-- C5: once an email is registered, any second registration with the
same email fails with the email Conflict error regardless of every other
field (username collisions included — the email check runs first), and
the global error handler maps a store duplicate-key violation on `email`
to the same 409 Conflict status. -/
theorem C5_duplicate_email_always_conflict :
    (∀ (cfg : Config) (now now₂ : Nat) (db : DB) (d₁ d₂ : UserData)
        (a : AuthResult),
      db.Wf → (UserService.createUser cfg now db d₁).result = .ok a →
      d₂.email = d₁.email →
      (UserService.createUser cfg now₂
          (UserService.createUser cfg now db d₁).db d₂).result
        = .error ⟨"Email already registered", 409⟩)
    ∧ errorHandler (.duplicateKey "email") = ⟨409, false, "email already exists"⟩ := by
  constructor
  · intro cfg now now₂ db d₁ d₂ a hw hok he
    obtain ⟨hemail, husr⟩ := createUser_ok_inv cfg now db d₁ a hok
    have hchar := createUser_ok_char cfg now db d₁ hw hemail husr
    rw [hchar]
    have hfind : DB.findOneByEmail ⟨db.users ++ [createdDoc cfg now db d₁],
        db.nextId + 1⟩ d₂.email = some (createdDoc cfg now db d₁) := by
      rw [he]
      exact find?_middle _ db.users [] _ (List.find?_eq_none.mp hemail)
        (by simp [createdDoc])
    unfold UserService.createUser
    rw [hfind]
  · rfl

/-- Witness for C5: re-registering "a@x.com" with different name, role
and username still fails with the email Conflict, and the duplicate-key
translation yields 409. -/
theorem C5_duplicate_email_always_conflict_witness :
    (UserService.createUser cfg0 1 (UserService.createUser cfg0 0 db0 regA).db
        regB).result = .error ⟨"Email already registered", 409⟩
    ∧ errorHandler (.duplicateKey "email") = ⟨409, false, "email already exists"⟩ :=
  ⟨C5_duplicate_email_always_conflict.1 cfg0 0 1 db0 regA regB regOkResult
      (by decide) (by decide) rfl,
   C5_duplicate_email_always_conflict.2⟩

/-- C9: a successful `createUser` and a successful `changePassword` each
perform exactly one bcrypt hash computation, while `loginUser` — whose
two saves touch only `lastLogin` and `refreshTokens` — performs none and
leaves every stored password hash unchanged. -/
theorem C9_hash_exactly_once_per_plaintext_change :
    (∀ (cfg : Config) (now : Nat) (db : DB) (d : UserData) (a : AuthResult),
      (UserService.createUser cfg now db d).result = .ok a →
      (UserService.createUser cfg now db d).hashes = 1)
    ∧ (∀ (cfg : Config) (db : DB) (uid : Nat) (cur npw msg : String),
      (UserService.changePassword cfg db uid cur npw).result = .ok msg →
      (UserService.changePassword cfg db uid cur npw).hashes = 1)
    ∧ (∀ (cfg : Config) (now : Nat) (db : DB) (email pw : String),
      db.Wf →
      (UserService.loginUser cfg now db email pw).hashes = 0
      ∧ (UserService.loginUser cfg now db email pw).db.users.map
            (fun v => v.password)
          = db.users.map (fun v => v.password)) := by
  refine ⟨?_, ?_, ?_⟩
  · intro cfg now db d a hok
    obtain ⟨hemail, husr⟩ := createUser_ok_inv cfg now db d a hok
    unfold UserService.createUser UserService.generateTokens
    rw [hemail]
    simp [husr, MDoc.save]
  · intro cfg db uid cur npw msg hok
    obtain ⟨u, hfind, hcmp⟩ := changePassword_ok_inv cfg db uid cur npw msg hok
    unfold UserService.changePassword
    rw [hfind]
    simp [hcmp, MDoc.save]
  · intro cfg now db email pw hw
    cases hf : db.findOneByEmail email with
    | none =>
      unfold UserService.loginUser
      rw [hf]
      exact ⟨rfl, rfl⟩
    | some u =>
      by_cases hc : u.comparePassword pw = true
      · by_cases ha : u.isActive = true
        · obtain ⟨l₁, l₂, hsplit, hl₁, hchar⟩ :=
            loginUser_ok_char cfg now db email pw u hw hf hc ha
          rw [hchar]
          refine ⟨rfl, ?_⟩
          rw [hsplit]
          simp [loggedDoc]
        · unfold UserService.loginUser
          rw [hf]
          simp [hc, ha]
      · unfold UserService.loginUser
        rw [hf]
        simp [hc]

/-- Witness for C9: scenario A — registration hashes once, a password
change hashes once, the login hashes zero times and preserves the stored
hashes. -/
theorem C9_hash_exactly_once_per_plaintext_change_witness :
    (UserService.createUser cfg0 0 db0 regA).hashes = 1
    ∧ (UserService.changePassword cfg0 dbReg 0 "pw123456" "newpw12345").hashes = 1
    ∧ ((UserService.loginUser cfg0 1 dbReg "a@x.com" "pw123456").hashes = 0
       ∧ (UserService.loginUser cfg0 1 dbReg "a@x.com" "pw123456").db.users.map
            (fun v => v.password)
          = dbReg.users.map (fun v => v.password)) :=
  ⟨C9_hash_exactly_once_per_plaintext_change.1 cfg0 0 db0 regA regOkResult
      (by decide),
   C9_hash_exactly_once_per_plaintext_change.2.1 cfg0 dbReg 0 "pw123456"
      "newpw12345" "Password changed successfully" (by decide),
   C9_hash_exactly_once_per_plaintext_change.2.2 cfg0 1 dbReg "a@x.com"
      "pw123456" (by decide)⟩

end UserMgmt

